import Mathlib

/-!
Verification of `autostarter/systems/linux.py` (Linux autostart manager).

The module manages "run at login" registrations by writing two files per
registration under a startup directory: a launcher `<identifier>.sh` and a
descriptor `<identifier>.desktop`.

We embed the filesystem shallowly as a state `FS`: an association list from
absolute path strings to files (content plus permission mode), together with
a list of directories that exist.  Each Python function becomes a Lean
function on `FS`; functions that only read the filesystem return the state
unchanged, mirroring that the source performs no writes there.
-/

namespace Autostarter

/-- A regular file: its text content and its permission bits (e.g. `0o755`). -/
structure File where
  content : String
  mode : Nat
deriving DecidableEq, Repr

/-- The filesystem state: regular files keyed by absolute path (at most one
entry per path is maintained by the operations below), and the set of
directories that exist, as a list of paths. -/
@[ext] structure FS where
  files : List (String × File)
  dirs : List String
deriving DecidableEq, Repr

/-- Default permission bits a freshly created file receives from `open(p, "w")`
(the exact value depends on the process umask; the claims do not depend on it). -/
def defaultMode : Nat := 0o644

/-- Content of the regular file at path `p`, if one exists. -/
def lookupFile (fs : FS) (p : String) : Option File :=
  fs.files.lookup p

/-- Embedding of `os.path.exists`: true when a regular file or a directory
exists at `p`. -/
def pathExists (fs : FS) (p : String) : Bool :=
  (lookupFile fs p).isSome || fs.dirs.contains p

/-- Drop every entry keyed `p` from an association list. -/
def eraseKey (p : String) (l : List (String × File)) : List (String × File) :=
  l.filter (fun e => e.1 != p)

/-- Mode of the file at `p`, or `defaultMode` when no file exists there:
`open(p, "w")` truncates an existing file keeping its permissions, and
creates a missing one with default permissions. -/
def modeOr (fs : FS) (p : String) : Nat :=
  match lookupFile fs p with
  | some f => f.mode
  | none => defaultMode

/-- Embedding of `open(p, "w"); f.write(c)`: overwrite or create the file at
`p` with content `c`, preserving an existing file's permission bits. -/
def writeFile (fs : FS) (p c : String) : FS :=
  { fs with files := (p, ⟨c, modeOr fs p⟩) :: eraseKey p fs.files }

/-- Embedding of `os.chmod(p, m)`: set the permission bits of the file at `p`. -/
def chmod (fs : FS) (p : String) (m : Nat) : FS :=
  { fs with files := fs.files.map (fun e => if e.1 = p then (e.1, ⟨e.2.content, m⟩) else e) }

/-- Insert a directory path if it is not already present. -/
def dirsInsert (d : String) (l : List String) : List String :=
  if l.contains d then l else d :: l

/-- The successive nonempty `/`-separated prefixes of a path, accumulated
while walking its characters: `done` is the part already consumed, and a
prefix is recorded at every `/` boundary and at the end of the path.  For
`/etc/init.d` this yields `["/etc", "/etc/init.d"]`. -/
def ancestorsAux (done : List Char) : List Char → List String
  | [] => if done = [] then [] else [String.mk done]
  | c :: cs =>
    if c = '/' ∧ done ≠ [] then String.mk done :: ancestorsAux (done ++ [c]) cs
    else ancestorsAux (done ++ [c]) cs

/-- The directories `os.makedirs(p)` creates when none of them exists yet:
every nonempty `/`-separated prefix of `p`, outermost first, ending with `p`
itself (the root `/` is never recorded, matching that it always exists). -/
def ancestors (p : String) : List String :=
  ancestorsAux [] p.data

/-- Insert each of the listed directories that is not already present,
left to right. -/
def insertAll (l : List String) (ds : List String) : List String :=
  l.foldl (fun acc a => dirsInsert a acc) ds

/-- Embedding of `os.makedirs(d, exist_ok=True)`: create the directory `d`
and every missing intermediate parent, i.e. every nonempty `/`-separated
prefix of `d` (for the system-wide folder, `/etc` and then `/etc/init.d`);
directories already present are left as they are. -/
def makedirs (fs : FS) (d : String) : FS :=
  { fs with dirs := insertAll (ancestors d) fs.dirs }

/-- Embedding of `os.remove(p)` with `FileNotFoundError` swallowed: delete the
regular file at `p` when it exists, a no-op otherwise. -/
def deleteFile (fs : FS) (p : String) : FS :=
  { fs with files := eraseKey p fs.files }

/-- Embedding of `_startup_folder(system_wide)`: `/etc/init.d` system-wide,
otherwise `~/.config/autostart` with `~` expanded to the invoking user's home
directory, which we pass explicitly as `home`. -/
def startup_folder (home : String) (system_wide : Bool) : String :=
  if system_wide then "/etc/init.d"
  else home ++ "/.config/autostart"

/-- State-passing form of `_startup_folder`: the source resolves the path from
its flag and the environment alone and performs no filesystem operation, so
the state component is returned unchanged. -/
def startup_folderS (fs : FS) (home : String) (system_wide : Bool) : FS × String :=
  (fs, startup_folder home system_wide)

/-- Path of the descriptor file `<dir>/<identifier>.desktop` for a scope. -/
def desktopPath (home identifier : String) (system_wide : Bool) : String :=
  startup_folder home system_wide ++ "/" ++ identifier ++ ".desktop"

/-- Path of the launcher file `<dir>/<identifier>.sh` for a scope. -/
def shPath (home identifier : String) (system_wide : Bool) : String :=
  startup_folder home system_wide ++ "/" ++ identifier ++ ".sh"

/-- Launcher file body written by `add`: a bash shebang, a blank line, then
the interpreter, script location and arguments separated by single spaces. -/
def launcherContent (interpreter script_location arguments : String) : String :=
  "#!/bin/bash\n\n" ++ interpreter ++ " " ++ script_location ++ " " ++ arguments ++ "\n"

/-- Descriptor file body written by `add`: a minimal `[Desktop Entry]` block
whose `Name` is the identifier and whose `Exec` is the launcher file path
(`{start_file}.sh` in the source). -/
def descriptorContent (identifier start_file : String) : String :=
  "[Desktop Entry]\nType=Application\nName=" ++ identifier ++ "\nExec=" ++ start_file ++ ".sh\n"

/-- Embedding of `check(identifier, system_wide)`: resolve the startup folder,
test whether `<dir>/<identifier>.desktop` exists, and return `True` or `False`.
The source performs no write, so the state is returned unchanged. -/
def check (fs : FS) (home identifier : String) (system_wide : Bool) : FS × Bool :=
  let start_desktop := startup_folder home system_wide ++ "/" ++ identifier ++ ".desktop"
  if pathExists fs start_desktop then (fs, true) else (fs, false)

/-- Embedding of `add(identifier, script_location, interpreter, system_wide,
arguments)`: make the startup folder, write the launcher `<start_file>.sh`,
chmod it to `0o755`, then write the descriptor `<start_file>.desktop`. -/
def add (fs : FS) (home identifier script_location interpreter : String)
    (system_wide : Bool) (arguments : String) : FS :=
  let start_dir := startup_folder home system_wide
  let fs1 := makedirs fs start_dir
  let start_file := start_dir ++ "/" ++ identifier
  let fs2 := writeFile fs1 (start_file ++ ".sh")
    (launcherContent interpreter script_location arguments)
  let fs3 := chmod fs2 (start_file ++ ".sh") 0o755
  writeFile fs3 (start_file ++ ".desktop") (descriptorContent identifier start_file)

/-- Modelled from the spec: `remove_list` lives in `autostarter/util.py`, which
is not among the provided sources (only its import appears in `linux.py`).
Per the spec, it attempts to delete each listed path; a path that does not
exist is a non-fatal "nothing to remove", and the result is `true` when every
deletion either succeeded or found nothing to delete.  Filesystem errors,
which the spec says propagate as exceptions, are not modelled. -/
def remove_list (fs : FS) (paths : List String) : FS × Bool :=
  (paths.foldl deleteFile fs, true)

/-- Embedding of `remove(identifier, system_wide)`: delete
`<dir>/<identifier>.sh` and `<dir>/<identifier>.desktop` via `remove_list`. -/
def remove (fs : FS) (home identifier : String) (system_wide : Bool) : FS × Bool :=
  remove_list fs
    [startup_folder home system_wide ++ "/" ++ identifier ++ ".sh",
     startup_folder home system_wide ++ "/" ++ identifier ++ ".desktop"]

/-! Basic lemmas about the filesystem primitives. -/

theorem lookup_cons_self (p : String) (f : File) (l : List (String × File)) :
    ((p, f) :: l).lookup p = some f := by
  simp [List.lookup]

theorem lookup_cons_ne (p q : String) (f : File) (l : List (String × File)) (h : q ≠ p) :
    ((p, f) :: l).lookup q = l.lookup q := by
  have hb : (q == p) = false := beq_eq_false_iff_ne.mpr h
  simp [List.lookup, hb]

theorem eraseKey_cons_self (p : String) (f : File) (l : List (String × File)) :
    eraseKey p ((p, f) :: l) = eraseKey p l := by
  simp [eraseKey, List.filter]

theorem eraseKey_cons_ne (p q : String) (f : File) (l : List (String × File)) (h : q ≠ p) :
    eraseKey p ((q, f) :: l) = (q, f) :: eraseKey p l := by
  have hb : (q != p) = true := bne_iff_ne.mpr h
  simp [eraseKey, List.filter, hb]

theorem lookup_eraseKey_self (p : String) (l : List (String × File)) :
    (eraseKey p l).lookup p = none := by
  induction l with
  | nil => rfl
  | cons e t ih =>
    by_cases he : e.1 = p
    · simp [eraseKey, List.filter, he] at ih ⊢
      exact ih
    · have hb : (e.1 != p) = true := bne_iff_ne.mpr he
      have hb2 : (p == e.1) = false := beq_eq_false_iff_ne.mpr (Ne.symm he)
      simp [eraseKey, List.filter, hb, List.lookup, hb2] at ih ⊢
      exact ih

theorem lookup_eraseKey_ne (p q : String) (l : List (String × File)) (h : q ≠ p) :
    (eraseKey p l).lookup q = l.lookup q := by
  induction l with
  | nil => rfl
  | cons e t ih =>
    rcases e with ⟨k, f⟩
    by_cases hk : k = p
    · subst hk
      rw [eraseKey_cons_self, ih, lookup_cons_ne _ _ _ _ h]
    · rw [eraseKey_cons_ne _ _ _ _ hk]
      by_cases hq : q = k
      · subst hq
        rw [lookup_cons_self, lookup_cons_self]
      · rw [lookup_cons_ne _ _ _ _ hq, lookup_cons_ne _ _ _ _ hq, ih]

theorem eraseKey_eraseKey_self (p : String) (l : List (String × File)) :
    eraseKey p (eraseKey p l) = eraseKey p l := by
  induction l with
  | nil => rfl
  | cons e t ih =>
    rcases e with ⟨k, f⟩
    by_cases hk : k = p
    · subst hk
      rw [eraseKey_cons_self, ih]
    · rw [eraseKey_cons_ne _ _ _ _ hk, eraseKey_cons_ne _ _ _ _ hk, ih]

theorem eraseKey_comm (p q : String) (l : List (String × File)) :
    eraseKey p (eraseKey q l) = eraseKey q (eraseKey p l) := by
  induction l with
  | nil => rfl
  | cons e t ih =>
    rcases e with ⟨k, f⟩
    by_cases hq : k = q
    · subst hq
      by_cases hp : k = p
      · subst hp
        rw [eraseKey_cons_self]
      · rw [eraseKey_cons_self, eraseKey_cons_ne _ _ _ _ hp, eraseKey_cons_self, ih]
    · rw [eraseKey_cons_ne _ _ _ _ hq]
      by_cases hp : k = p
      · subst hp
        rw [eraseKey_cons_self, eraseKey_cons_self, ih]
      · rw [eraseKey_cons_ne _ _ _ _ hp, eraseKey_cons_ne _ _ _ _ hp,
          eraseKey_cons_ne _ _ _ _ hq, ih]

theorem eraseKey_of_lookup_none (p : String) (l : List (String × File))
    (h : l.lookup p = none) : eraseKey p l = l := by
  induction l with
  | nil => rfl
  | cons e t ih =>
    rcases e with ⟨k, f⟩
    by_cases hk : p = k
    · subst hk
      simp [List.lookup] at h
    · have hb : (p == k) = false := beq_eq_false_iff_ne.mpr hk
      have hbk : (k != p) = true := bne_iff_ne.mpr (Ne.symm hk)
      simp [List.lookup, hb] at h
      simp [eraseKey, List.filter, hbk] at ih ⊢
      exact ih h

theorem chmod_map_eraseKey (p : String) (m : Nat) (l : List (String × File)) :
    (eraseKey p l).map (fun e => if e.1 = p then (e.1, ⟨e.2.content, m⟩) else e)
      = eraseKey p l := by
  induction l with
  | nil => rfl
  | cons e t ih =>
    rcases e with ⟨k, f⟩
    by_cases hk : k = p
    · subst hk
      rw [eraseKey_cons_self, ih]
    · rw [eraseKey_cons_ne _ _ _ _ hk, List.map_cons, ih, if_neg hk]

theorem contains_dirsInsert_ne (d e : String) (l : List String) (h : e ≠ d) :
    (dirsInsert d l).contains e = l.contains e := by
  by_cases hc : d ∈ l
  · simp [dirsInsert, hc]
  · simp [dirsInsert, hc, h]

theorem dirsInsert_of_mem (a : String) (ds : List String) (h : a ∈ ds) :
    dirsInsert a ds = ds := by
  simp [dirsInsert, h]

theorem mem_dirsInsert (a b : String) (ds : List String) :
    b ∈ dirsInsert a ds ↔ b = a ∨ b ∈ ds := by
  by_cases h : a ∈ ds
  · rw [dirsInsert_of_mem a ds h]
    constructor
    · exact fun hb => Or.inr hb
    · rintro (rfl | hb)
      · exact h
      · exact hb
  · have he : dirsInsert a ds = a :: ds := by simp [dirsInsert, h]
    rw [he, List.mem_cons]

theorem mem_insertAll (l : List String) (b : String) :
    ∀ ds : List String, (b ∈ insertAll l ds ↔ b ∈ l ∨ b ∈ ds) := by
  induction l with
  | nil => intro ds; simp [insertAll]
  | cons a t ih =>
    intro ds
    have hstep : insertAll (a :: t) ds = insertAll t (dirsInsert a ds) := rfl
    rw [hstep, ih (dirsInsert a ds), mem_dirsInsert, List.mem_cons]
    tauto

theorem insertAll_of_all_mem (l : List String) :
    ∀ ds : List String, (∀ a ∈ l, a ∈ ds) → insertAll l ds = ds := by
  induction l with
  | nil => intro ds _; rfl
  | cons a t ih =>
    intro ds h
    have ha : a ∈ ds := h a (by simp)
    have hstep : insertAll (a :: t) ds = insertAll t (dirsInsert a ds) := rfl
    rw [hstep, dirsInsert_of_mem a ds ha]
    exact ih ds (fun b hb => h b (by simp [hb]))

theorem insertAll_idem (l ds : List String) :
    insertAll l (insertAll l ds) = insertAll l ds :=
  insertAll_of_all_mem l (insertAll l ds) (fun a ha => (mem_insertAll l a ds).mpr (Or.inl ha))

theorem contains_insertAll_notmem (l : List String) (d : String) :
    ∀ ds : List String, d ∉ l → (insertAll l ds).contains d = ds.contains d := by
  induction l with
  | nil => intro ds _; rfl
  | cons a t ih =>
    intro ds h
    have hd : d ≠ a := fun he => h (by simp [he])
    have ht : d ∉ t := fun hm => h (by simp [hm])
    have hstep : insertAll (a :: t) ds = insertAll t (dirsInsert a ds) := rfl
    rw [hstep, ih (dirsInsert a ds) ht, contains_dirsInsert_ne a d ds hd]

theorem ancestorsAux_extends (rest : List Char) :
    ∀ done : List Char, ∀ a ∈ ancestorsAux done rest,
      ∃ t : List Char, done ++ rest = a.data ++ t := by
  induction rest with
  | nil =>
    intro done a ha
    by_cases h : done = []
    · simp [ancestorsAux, h] at ha
    · rw [show ancestorsAux done [] = [String.mk done] from by simp [ancestorsAux, h]] at ha
      rw [List.mem_singleton] at ha
      subst ha
      exact ⟨[], by simp⟩
  | cons c cs ih =>
    intro done a ha
    by_cases h : c = '/' ∧ done ≠ []
    · rw [show ancestorsAux done (c :: cs)
          = String.mk done :: ancestorsAux (done ++ [c]) cs from by
            simp only [ancestorsAux, if_pos h]] at ha
      rcases List.mem_cons.mp ha with ha | ha
      · subst ha
        exact ⟨c :: cs, rfl⟩
      · obtain ⟨t, ht⟩ := ih (done ++ [c]) a ha
        refine ⟨t, ?_⟩
        rw [← ht, List.append_assoc, List.singleton_append]
    · rw [show ancestorsAux done (c :: cs) = ancestorsAux (done ++ [c]) cs from by
          simp only [ancestorsAux, if_neg h]] at ha
      obtain ⟨t, ht⟩ := ih (done ++ [c]) a ha
      refine ⟨t, ?_⟩
      rw [← ht, List.append_assoc, List.singleton_append]

theorem ancestors_extends (p a : String) (ha : a ∈ ancestors p) :
    ∃ t : String, p = a ++ t := by
  obtain ⟨t, ht⟩ := ancestorsAux_extends p.data [] a ha
  rw [List.nil_append] at ht
  refine ⟨String.mk t, ?_⟩
  apply String.ext
  rw [String.data_append, ← ht]

/-- The launcher path and the descriptor path of one registration differ:
their lengths differ by the lengths of the suffixes `.sh` and `.desktop`. -/
theorem shPath_ne_desktopPath (home identifier : String) (system_wide : Bool) :
    shPath home identifier system_wide ≠ desktopPath home identifier system_wide := by
  intro h
  have hl := congrArg String.length h
  have h3 : (".sh" : String).length = 3 := rfl
  have h8 : (".desktop" : String).length = 8 := rfl
  simp only [shPath, desktopPath, String.length_append, h3, h8] at hl
  omega

/-! Lemmas about `lookupFile` and the state operations. -/

theorem lookupFile_writeFile_self (fs : FS) (p c : String) :
    lookupFile (writeFile fs p c) p = some ⟨c, modeOr fs p⟩ := by
  simp [lookupFile, writeFile, lookup_cons_self]

theorem lookupFile_writeFile_ne (fs : FS) (p c q : String) (h : q ≠ p) :
    lookupFile (writeFile fs p c) q = lookupFile fs q := by
  simp only [lookupFile, writeFile]
  rw [lookup_cons_ne _ _ _ _ h, lookup_eraseKey_ne _ _ _ h]

theorem lookupFile_chmod_ne (fs : FS) (p : String) (m : Nat) (q : String) (h : q ≠ p) :
    lookupFile (chmod fs p m) q = lookupFile fs q := by
  simp only [lookupFile, chmod]
  induction fs.files with
  | nil => rfl
  | cons e t ih =>
    rcases e with ⟨k, f⟩
    by_cases hk : k = p
    · subst hk
      rw [List.map_cons, if_pos rfl]
      rw [lookup_cons_ne _ _ _ _ h, lookup_cons_ne _ _ _ _ h]
      exact ih
    · rw [List.map_cons, if_neg hk]
      by_cases hq : q = k
      · subst hq
        rw [lookup_cons_self, lookup_cons_self]
      · rw [lookup_cons_ne _ _ _ _ hq, lookup_cons_ne _ _ _ _ hq]
        exact ih

theorem lookupFile_deleteFile_self (fs : FS) (p : String) :
    lookupFile (deleteFile fs p) p = none := by
  simp only [lookupFile, deleteFile]
  exact lookup_eraseKey_self p fs.files

theorem lookupFile_deleteFile_ne (fs : FS) (p q : String) (h : q ≠ p) :
    lookupFile (deleteFile fs p) q = lookupFile fs q := by
  simp only [lookupFile, deleteFile]
  exact lookup_eraseKey_ne _ _ _ h

theorem lookupFile_makedirs (fs : FS) (d p : String) :
    lookupFile (makedirs fs d) p = lookupFile fs p := rfl

theorem dirs_writeFile (fs : FS) (p c : String) : (writeFile fs p c).dirs = fs.dirs := rfl

theorem dirs_chmod (fs : FS) (p : String) (m : Nat) : (chmod fs p m).dirs = fs.dirs := rfl

theorem dirs_deleteFile (fs : FS) (p : String) : (deleteFile fs p).dirs = fs.dirs := rfl

theorem modeOr_congr (fs fs2 : FS) (p : String)
    (h : lookupFile fs p = lookupFile fs2 p) : modeOr fs p = modeOr fs2 p := by
  simp [modeOr, h]

/-! Closed form of `add`: the descriptor entry, then the launcher entry with
mode `0o755`, then the previous files with both registration paths erased;
the startup directory is inserted into the directory list. -/

theorem add_files_eq (fs : FS) (home i loc interp : String) (s : Bool) (args : String) :
    (add fs home i loc interp s args).files
      = (desktopPath home i s,
          ⟨descriptorContent i (startup_folder home s ++ "/" ++ i), modeOr fs (desktopPath home i s)⟩)
        :: (shPath home i s, ⟨launcherContent interp loc args, 0o755⟩)
        :: eraseKey (desktopPath home i s) (eraseKey (shPath home i s) fs.files) := by
  have hne : desktopPath home i s ≠ shPath home i s :=
    fun h => shPath_ne_desktopPath home i s h.symm
  simp only [add, shPath, desktopPath] at *
  set dir := startup_folder home s with hdir
  set sh := dir ++ "/" ++ i ++ ".sh" with hsh
  set dk := dir ++ "/" ++ i ++ ".desktop" with hdk
  set fs2 := writeFile (makedirs fs dir) sh (launcherContent interp loc args) with hfs2
  set fs3 := chmod fs2 sh 0o755 with hfs3
  have h2 : fs2.files
      = (sh, ⟨launcherContent interp loc args, modeOr fs sh⟩) :: eraseKey sh fs.files := rfl
  have h3 : fs3.files
      = (sh, ⟨launcherContent interp loc args, 0o755⟩) :: eraseKey sh fs.files := by
    simp [hfs3, chmod, h2, chmod_map_eraseKey]
  have hlk : lookupFile fs3 dk = lookupFile fs dk := by
    rw [hfs3, lookupFile_chmod_ne _ _ _ _ hne, hfs2, lookupFile_writeFile_ne _ _ _ _ hne,
      lookupFile_makedirs]
  have hmode : modeOr fs3 dk = modeOr fs dk := modeOr_congr _ _ _ hlk
  show (writeFile fs3 dk (descriptorContent i (dir ++ "/" ++ i))).files = _
  simp only [writeFile]
  rw [hmode, h3, eraseKey_cons_ne _ _ _ _ (Ne.symm hne)]

theorem add_dirs_eq (fs : FS) (home i loc interp : String) (s : Bool) (args : String) :
    (add fs home i loc interp s args).dirs
      = insertAll (ancestors (startup_folder home s)) fs.dirs := rfl

theorem lookupFile_add_desktop (fs : FS) (home i loc interp : String) (s : Bool) (args : String) :
    lookupFile (add fs home i loc interp s args) (desktopPath home i s)
      = some ⟨descriptorContent i (startup_folder home s ++ "/" ++ i),
          modeOr fs (desktopPath home i s)⟩ := by
  simp only [lookupFile, add_files_eq]
  exact lookup_cons_self _ _ _

theorem lookupFile_add_sh (fs : FS) (home i loc interp : String) (s : Bool) (args : String) :
    lookupFile (add fs home i loc interp s args) (shPath home i s)
      = some ⟨launcherContent interp loc args, 0o755⟩ := by
  simp only [lookupFile, add_files_eq]
  rw [lookup_cons_ne _ _ _ _ (shPath_ne_desktopPath home i s)]
  exact lookup_cons_self _ _ _

theorem check_snd_eq_pathExists (fs : FS) (home i : String) (s : Bool) :
    (check fs home i s).2 = pathExists fs (desktopPath home i s) := by
  simp only [check, desktopPath]
  cases h : pathExists fs (startup_folder home s ++ "/" ++ i ++ ".desktop") <;> simp [h]

theorem check_fst_eq (fs : FS) (home i : String) (s : Bool) :
    (check fs home i s).1 = fs := by
  simp only [check]
  cases h : pathExists fs (startup_folder home s ++ "/" ++ i ++ ".desktop") <;> simp [h]

/-! The claims. -/

/-- C1: `check(i, s)` returns true exactly when the descriptor file
`<startup-dir-for-s>/<i>.desktop` exists on the filesystem (false otherwise,
in particular for an identifier never registered in scope `s`), and the
launcher file `<i>.sh` plays no role: writing it with any content leaves the
result of `check` unchanged. -/
theorem check_iff_descriptor_exists (fs : FS) (home i c : String) (s : Bool) :
    (check fs home i s).2 = pathExists fs (desktopPath home i s)
    ∧ (check (writeFile fs (shPath home i s) c) home i s).2 = (check fs home i s).2 := by
  refine ⟨check_snd_eq_pathExists fs home i s, ?_⟩
  rw [check_snd_eq_pathExists, check_snd_eq_pathExists]
  simp only [pathExists]
  rw [lookupFile_writeFile_ne _ _ _ _ (Ne.symm (shPath_ne_desktopPath home i s)), dirs_writeFile]

/-- C2: immediately after `add(i, path, interp, s, args)`, `check(i, s)`
returns true: the descriptor file has just been written. -/
theorem check_after_add (fs : FS) (home i loc interp : String) (s : Bool) (args : String) :
    (check (add fs home i loc interp s args) home i s).2 = true := by
  rw [check_snd_eq_pathExists]
  simp [pathExists, lookupFile_add_desktop]

/-- C9: scope resolution is pure and idempotent: `_startup_folder` leaves the
filesystem unchanged, resolving twice in a row yields the same path, and the
resolved paths are the fixed system directory `/etc/init.d` resp. the
per-user `~/.config/autostart`. -/
theorem startup_folder_pure_idempotent (fs : FS) (home : String) (s : Bool) :
    (startup_folderS fs home s).1 = fs
    ∧ (startup_folderS (startup_folderS fs home s).1 home s).2 = (startup_folderS fs home s).2
    ∧ startup_folder home true = "/etc/init.d"
    ∧ startup_folder home false = home ++ "/.config/autostart" :=
  ⟨rfl, rfl, rfl, rfl⟩

/-- C10: `check` is total and read-only: for every identifier string,
including the empty string and strings with path separators, it returns its
boolean without mutating the filesystem state, and no validation is applied
to the identifier — the empty identifier is spliced into the path like any
other, probing `<dir>/.desktop`. -/
theorem check_total_readonly (fs : FS) (home i : String) (s : Bool) :
    (check fs home i s).1 = fs
    ∧ (check fs home i s).2 = pathExists fs (startup_folder home s ++ "/" ++ i ++ ".desktop")
    ∧ (check fs home "" s).2 = pathExists fs (startup_folder home s ++ "/.desktop") := by
  refine ⟨check_fst_eq fs home i s, check_snd_eq_pathExists fs home i s, ?_⟩
  rw [check_snd_eq_pathExists]
  have hp : desktopPath home "" s = startup_folder home s ++ "/.desktop" := by
    simp only [desktopPath, String.append_empty, String.append_assoc]
    rfl
  rw [hp]

/-- C3: immediately after `remove(i, s)`, `check(i, s)` returns false: the
descriptor file no longer exists.  The hypothesis rules out a directory
sitting at the descriptor path, a situation in which the real `os.remove`
would raise instead of returning. -/
theorem check_after_remove (fs : FS) (home i : String) (s : Bool)
    (hd : fs.dirs.contains (desktopPath home i s) = false) :
    (check (remove fs home i s).1 home i s).2 = false := by
  rw [check_snd_eq_pathExists]
  have h1 : (remove fs home i s).1
      = deleteFile (deleteFile fs (shPath home i s)) (desktopPath home i s) := rfl
  rw [h1]
  have hl : lookupFile (deleteFile (deleteFile fs (shPath home i s)) (desktopPath home i s))
      (desktopPath home i s) = none := lookupFile_deleteFile_self _ _
  have hdirs : (deleteFile (deleteFile fs (shPath home i s)) (desktopPath home i s)).dirs
      = fs.dirs := rfl
  simp only [pathExists, hl, hdirs, Option.isSome_none, Bool.false_or]
  exact hd

theorem check_after_remove_witness :
    (FS.mk [("/h/.config/autostart/a.desktop", ⟨"d", 420⟩)] []).dirs.contains
        (desktopPath "/h" "a" false) = false
    ∧ (check (remove (FS.mk [("/h/.config/autostart/a.desktop", ⟨"d", 420⟩)] []) "/h" "a" false).1
        "/h" "a" false).2 = false :=
  ⟨rfl, check_after_remove (FS.mk [("/h/.config/autostart/a.desktop", ⟨"d", 420⟩)] [])
    "/h" "a" false rfl⟩

/-- C4: the launcher file written by `add` has exactly the content
`#!/bin/bash\n\n<interpreter> <script_location> <arguments>\n` and permission
bits `0o755`; in particular `add("build", "/opt/build.sh", "python3",
per-user, "-v")` writes `#!/bin/bash\n\npython3 /opt/build.sh -v\n`. -/
theorem add_launcher_content_mode (fs : FS) (home i loc interp : String) (s : Bool)
    (args : String) :
    lookupFile (add fs home i loc interp s args) (shPath home i s)
      = some ⟨"#!/bin/bash\n\n" ++ interp ++ " " ++ loc ++ " " ++ args ++ "\n", 0o755⟩
    ∧ lookupFile (add (FS.mk [] []) "/home/user" "build" "/opt/build.sh" "python3" false "-v")
        (shPath "/home/user" "build" false)
      = some ⟨"#!/bin/bash\n\npython3 /opt/build.sh -v\n", 0o755⟩ :=
  ⟨lookupFile_add_sh fs home i loc interp s args, rfl⟩

/-- C5: the descriptor file written by `add` is the minimal Desktop Entry
block whose `Name` equals the identifier and whose `Exec` equals the full
launcher path `<startup-dir>/<i>.sh`; in particular the per-user call for
`build` yields `Name=build` and `Exec=<home>/.config/autostart/build.sh`. -/
theorem add_descriptor_content (fs : FS) (home i loc interp : String) (s : Bool)
    (args : String) :
    (lookupFile (add fs home i loc interp s args) (desktopPath home i s)).map File.content
      = some ("[Desktop Entry]\nType=Application\nName=" ++ i ++ "\nExec="
          ++ shPath home i s ++ "\n")
    ∧ (lookupFile (add (FS.mk [] []) "/home/user" "build" "/opt/build.sh" "python3" false "-v")
        (desktopPath "/home/user" "build" false)).map File.content
      = some
        "[Desktop Entry]\nType=Application\nName=build\nExec=/home/user/.config/autostart/build.sh\n" := by
  constructor
  · rw [lookupFile_add_desktop]
    simp only [Option.map_some, descriptorContent, shPath]
    simp only [String.append_assoc]
    rfl
  · rfl

/-- C6: `remove` on an identifier never registered in scope `s` (neither
`<i>.sh` nor `<i>.desktop` exists) returns the success indication `true` and
leaves the filesystem unchanged: missing targets are "nothing to remove",
not errors. -/
theorem remove_unregistered (fs : FS) (home i : String) (s : Bool)
    (h1 : lookupFile fs (shPath home i s) = none)
    (h2 : lookupFile fs (desktopPath home i s) = none) :
    (remove fs home i s).2 = true ∧ (remove fs home i s).1 = fs := by
  refine ⟨rfl, ?_⟩
  have e1 : deleteFile fs (shPath home i s) = fs := by
    apply FS.ext
    · exact eraseKey_of_lookup_none _ _ h1
    · rfl
  have hr : (remove fs home i s).1
      = deleteFile (deleteFile fs (shPath home i s)) (desktopPath home i s) := rfl
  rw [hr, e1]
  apply FS.ext
  · exact eraseKey_of_lookup_none _ _ h2
  · rfl

theorem remove_unregistered_witness :
    lookupFile (FS.mk [] ["/h/.config/autostart"]) (shPath "/h" "a" false) = none
    ∧ lookupFile (FS.mk [] ["/h/.config/autostart"]) (desktopPath "/h" "a" false) = none
    ∧ (remove (FS.mk [] ["/h/.config/autostart"]) "/h" "a" false).2 = true
    ∧ (remove (FS.mk [] ["/h/.config/autostart"]) "/h" "a" false).1
      = FS.mk [] ["/h/.config/autostart"] :=
  ⟨rfl, rfl,
    (remove_unregistered (FS.mk [] ["/h/.config/autostart"]) "/h" "a" false rfl rfl).1,
    (remove_unregistered (FS.mk [] ["/h/.config/autostart"]) "/h" "a" false rfl rfl).2⟩

/-- C7: `add` is overwrite-idempotent: running `add` twice with the same
identifier and scope produces exactly the state of the second call alone —
one launcher and one descriptor entry for the registration, with the second
call's contents, and no duplicate or versioned files. -/
theorem add_twice_overwrites (fs : FS) (home i l1 n1 a1 l2 n2 a2 : String) (s : Bool) :
    add (add fs home i l1 n1 s a1) home i l2 n2 s a2 = add fs home i l2 n2 s a2 := by
  have hne : shPath home i s ≠ desktopPath home i s := shPath_ne_desktopPath home i s
  have hm : modeOr (add fs home i l1 n1 s a1) (desktopPath home i s)
      = modeOr fs (desktopPath home i s) := by
    simp [modeOr, lookupFile_add_desktop]
  apply FS.ext
  · rw [add_files_eq, add_files_eq, add_files_eq, hm]
    congr 1
    congr 1
    rw [eraseKey_cons_ne _ _ _ _ (Ne.symm hne), eraseKey_cons_self, eraseKey_cons_self,
      eraseKey_comm (desktopPath home i s) (shPath home i s), eraseKey_eraseKey_self,
      eraseKey_comm (shPath home i s) (desktopPath home i s), eraseKey_eraseKey_self]
  · rw [add_dirs_eq, add_dirs_eq, add_dirs_eq, insertAll_idem]

/-- C8 counterexample: the claim that every path `add` creates lies under the
resolved startup directory fails, because `os.makedirs` creates missing
intermediate parents.  Starting from the empty filesystem, a system-wide
`add` creates the directory `/etc`, which did not exist before, is not the
resolved directory `/etc/init.d`, and does not extend it. -/
theorem add_creates_parent_outside_startup_dir :
    (FS.mk [] []).dirs.contains "/etc" = false
    ∧ (add (FS.mk [] []) "/h" "a" "/opt/x.py" "python3" true "-v").dirs.contains "/etc" = true
    ∧ (∀ t : String, "/etc" ≠ startup_folder "/h" true ++ t) := by
  refine ⟨rfl, by decide, ?_⟩
  intro t h
  have hl := congrArg String.length h
  rw [String.length_append] at hl
  have h1 : ("/etc" : String).length = 4 := rfl
  have h2 : (startup_folder "/h" true).length = 11 := rfl
  omega

/-- C8 (amended): `add` writes files only at the registration's two paths,
both of which extend the resolved startup directory; the directories it
creates are only the resolved directory and its missing ancestor prefixes
(each of which the resolved directory's path extends); every other path and
directory is left unchanged — in particular the other scope's directory and
files, whenever that directory is not an ancestor prefix of the resolved
one. -/
theorem add_frame_with_ancestors (fs : FS) (home i loc interp args p d : String) (s : Bool)
    (hp1 : p ≠ shPath home i s) (hp2 : p ≠ desktopPath home i s)
    (hd : d ∉ ancestors (startup_folder home s)) :
    lookupFile (add fs home i loc interp s args) p = lookupFile fs p
    ∧ (add fs home i loc interp s args).dirs.contains d = fs.dirs.contains d
    ∧ (∀ a ∈ ancestors (startup_folder home s), ∃ t : String, startup_folder home s = a ++ t)
    ∧ (∃ t : String, shPath home i s = startup_folder home s ++ t)
    ∧ (∃ t : String, desktopPath home i s = startup_folder home s ++ t) := by
  refine ⟨?_, ?_, ?_, ?_, ?_⟩
  · simp only [lookupFile, add_files_eq]
    rw [lookup_cons_ne _ _ _ _ hp2, lookup_cons_ne _ _ _ _ hp1,
      lookup_eraseKey_ne _ _ _ hp2, lookup_eraseKey_ne _ _ _ hp1]
  · rw [add_dirs_eq]
    exact contains_insertAll_notmem _ _ fs.dirs hd
  · exact fun a ha => ancestors_extends (startup_folder home s) a ha
  · exact ⟨"/" ++ (i ++ ".sh"), by rw [shPath, String.append_assoc, String.append_assoc]⟩
  · exact ⟨"/" ++ (i ++ ".desktop"), by rw [desktopPath, String.append_assoc, String.append_assoc]⟩

theorem add_frame_with_ancestors_witness :
    ("/h/.config/autostart/a.sh" ≠ shPath "/h" "a" true
      ∧ "/h/.config/autostart/a.sh" ≠ desktopPath "/h" "a" true
      ∧ "/h/.config/autostart" ∉ ancestors (startup_folder "/h" true))
    ∧ (lookupFile (add (FS.mk [] []) "/h" "a" "/opt/x.py" "python3" true "-v")
        "/h/.config/autostart/a.sh" = lookupFile (FS.mk [] []) "/h/.config/autostart/a.sh"
      ∧ (add (FS.mk [] []) "/h" "a" "/opt/x.py" "python3" true "-v").dirs.contains
          "/h/.config/autostart" = (FS.mk [] []).dirs.contains "/h/.config/autostart"
      ∧ (∀ a ∈ ancestors (startup_folder "/h" true),
          ∃ t : String, startup_folder "/h" true = a ++ t)
      ∧ (∃ t : String, shPath "/h" "a" true = startup_folder "/h" true ++ t)
      ∧ (∃ t : String, desktopPath "/h" "a" true = startup_folder "/h" true ++ t)) :=
  ⟨⟨by decide, by decide, by decide⟩,
    add_frame_with_ancestors (FS.mk [] []) "/h" "a" "/opt/x.py" "python3" "-v"
      "/h/.config/autostart/a.sh" "/h/.config/autostart" true
      (by decide) (by decide) (by decide)⟩

end Autostarter
